import Mathlib

/-!
Verification development for the gorilla-lang repository: a shallow embedding
of the Pratt parser (package `parser`), the bytecode instruction encoding
(package `code`) and the stack virtual machine (package `vm`), with theorems
settling the specification's testable properties against the embedded code.

Conventions of the embedding:
* Go machine integers are modelled as `Int`/`Nat` (no overflow is reachable in
  the modelled paths except where noted explicitly).
* Go `panic`/`recover` is modelled by an explicit result constructor carrying
  the panic value; Go functions returning `error` are modelled by result
  constructors carrying the error.
* The tokenizer (package `token` / `lexer`) is an external collaborator of the
  repository; parser inputs are therefore modelled as the stream of items the
  lexer hands to the parser (tokens, or a lexical-error callback invocation).
-/

/-- Source position carried by a token (`token.Position`): line and column.
The Go zero value of the struct is line 0, column 0. -/
structure Position where
  line : Nat
  column : Nat
deriving DecidableEq, Repr

/-- Modelled from the spec: the `token` package is not under `src/`.  Token
kinds used by the parser's registration table (`parser.New`) and by the
statement/expression grammar.  `GetPostfixOperators` is modelled as empty: no
postfix operator token occurs in any claim. -/
inductive TokenType where
  | IDENT | INT | TRUE | FALSE | STRING
  | IF | ELSE | FUNCTION | LET | RETURN
  | ASSIGN | PLUS | MINUS | BANG | ASTERISK | SLASH
  | LT | GT | EQ | NOT_EQ
  | LPAREN | RPAREN | LBRACE | RBRACE | LBRACKET | RBRACKET
  | COMMA | SEMICOLON | COLON | EOF
deriving DecidableEq, Repr

/-- Modelled from the spec: display name of a token kind, used by the parser's
`%q` error formatting (the `token` package's string values are not under
`src/`). -/
def TokenType.name : TokenType → String
  | .IDENT => "IDENT" | .INT => "INT" | .TRUE => "TRUE" | .FALSE => "FALSE"
  | .STRING => "STRING" | .IF => "IF" | .ELSE => "ELSE"
  | .FUNCTION => "FUNCTION" | .LET => "LET" | .RETURN => "RETURN"
  | .ASSIGN => "ASSIGN" | .PLUS => "PLUS" | .MINUS => "MINUS"
  | .BANG => "BANG" | .ASTERISK => "ASTERISK" | .SLASH => "SLASH"
  | .LT => "LT" | .GT => "GT" | .EQ => "EQ" | .NOT_EQ => "NOT_EQ"
  | .LPAREN => "LPAREN" | .RPAREN => "RPAREN" | .LBRACE => "LBRACE"
  | .RBRACE => "RBRACE" | .LBRACKET => "LBRACKET" | .RBRACKET => "RBRACKET"
  | .COMMA => "COMMA" | .SEMICOLON => "SEMICOLON" | .COLON => "COLON"
  | .EOF => "EOF"

/-- `%q` rendering of a token kind (Go quotes the string value). -/
def TokenType.q (t : TokenType) : String := "\"" ++ t.name ++ "\""

/-- Modelled from the spec: the `token` package's fixed operator-to-precedence
table (`Token.Precedence()`) is not under `src/`.  The spec fixes its shape:
multiplication/division bind tighter than addition/subtraction, comparisons
looser, call `(` and index `[` tighter than every binary operator, and every
non-operator token has the lowest precedence. -/
def TokenType.precedence : TokenType → Nat
  | .EQ | .NOT_EQ => 2
  | .LT | .GT => 3
  | .PLUS | .MINUS => 4
  | .ASTERISK | .SLASH => 5
  | .LPAREN => 7
  | .LBRACKET => 8
  | _ => 0

/-- `token.LOWEST_PRECEDENCE`. -/
def LOWEST_PRECEDENCE : Nat := 0

/-- A token (`token.Token`): kind, literal text, source position. -/
structure Token where
  type : TokenType
  literal : String
  pos : Position
deriving DecidableEq, Repr

/-- The zero/end token handed out once the lexer input is exhausted. -/
def eofToken : Token := { type := .EOF, literal := "", pos := ⟨0, 0⟩ }

/-- One item produced by the external lexer towards the parser: either the next
token, or an invocation of the caller-supplied error callback with a position
and message (the tokenizer contract of the spec). -/
inductive LexItem where
  | tok (t : Token)
  | lexErr (pos : Position) (msg : String)
deriving DecidableEq, Repr

/-- `parser.ParserError`: the fault value the parser panics with.  Every panic
site in the source populates `errorToken` and `msg` only; the separate `pos`
field is left at its zero value. -/
structure ParserError where
  errorToken : Token
  msg : String
  pos : Position
deriving DecidableEq, Repr

/-- `ParserError.Error()`: `fmt.Sprintf("%s at line: %d, column: %d", p.msg,
p.pos.Line, p.pos.Column)` — note it formats the `pos` field, not
`errorToken.Pos`. -/
def ParserError.ErrorStr (e : ParserError) : String :=
  e.msg ++ " at line: " ++ toString e.pos.line ++ ", column: " ++ toString e.pos.column

/-- A Go panic value as it occurs in this parser: either the plain string the
lexer error callback panics with (`parser.New`'s handler), or a
`ParserError`. -/
inductive PanicVal where
  | str (s : String)
  | perr (e : ParserError)
deriving DecidableEq, Repr

/-- `ast.Identifier` (used as the `Name` of let statements and functions). -/
structure Identifier where
  tok : Token
  value : String
deriving DecidableEq, Repr

mutual
/-- The `ast.Expression` variants the parser builds.  `hashLit`'s pairs model
the contents of the Go `map[ast.Expression]ast.Expression` in insertion order;
because every parsed key is a freshly allocated node (interface keys compare by
pointer), no insertion ever overwrites, but iteration order of the Go map is
unspecified — see `goMapIterOk`. -/
inductive Expression where
  | identE (tok : Token) (value : String)
  | integer (tok : Token) (value : Int)
  | boolean (tok : Token) (value : Bool)
  | stringE (tok : Token) (value : String)
  | prefixExpr (tok : Token) (operator : String) (value : Expression)
  | infixExpr (tok : Token) (left : Expression) (operator : String) (right : Expression)
  | postfixExpr (tok : Token) (left : Expression) (operator : String)
  | ifExpr (tok : Token) (condition : Expression) (thenBody : BlockExpression)
      (elseBody : Option BlockExpression)
  | functionExpr (tok : Token) (name : Option Identifier) (parameters : List Identifier)
      (body : BlockExpression)
  | arrayLit (tok : Token) (elements : List Expression)
  | hashLit (tok : Token) (pair : List (Expression × Expression))
  | callExpr (tok : Token) (function : Expression) (arguments : List Expression)

/-- `ast.BlockExpression`. -/
inductive BlockExpression where
  | mk (tok : Token) (statements : List Statement)

/-- The `ast.Statement` variants. -/
inductive Statement where
  | letStmt (tok : Token) (name : Identifier) (value : Expression)
  | returnStmt (tok : Token) (value : Option Expression)
  | exprStmt (tok : Token) (value : Expression)
end

/-- `ast.Program` is a list of statements. -/
abbrev Program := List Statement

/-- Parser cursor state: `currentToken`, `peekToken`, and the remaining lexer
stream (`Parser.nextToken` pulls from it). -/
structure PState where
  current : Token
  peek : Token
  rest : List LexItem
deriving Repr

/-- Result of running a parser step: normal completion with a value and the
updated state, a Go panic carrying its value, or exhaustion of the step fuel
of the embedding (never the case for the concrete runs below). -/
inductive PRes (α : Type) where
  | ok (a : α) (s : PState)
  | panicked (pv : PanicVal)
  | fuelOut

/-- Sequencing of parser steps: panics and fuel exhaustion propagate. -/
def PRes.bind {α β : Type} : PRes α → (α → PState → PRes β) → PRes β
  | .ok a s, f => f a s
  | .panicked pv, _ => .panicked pv
  | .fuelOut, _ => .fuelOut

/-- `Parser.nextToken`: shift `peekToken` into `currentToken` and pull a new
lookahead from the lexer; returns the new current token.  When the lexer hits
malformed input it invokes the error callback installed by `parser.New`, which
panics with the formatted plain string (not a `ParserError`). -/
def nextToken (s : PState) : PRes Token :=
  match s.rest with
  | [] => .ok s.peek { current := s.peek, peek := eofToken, rest := [] }
  | .tok t :: r => .ok s.peek { current := s.peek, peek := t, rest := r }
  | .lexErr pos msg :: _ =>
      .panicked (.str (msg ++ " at line: " ++ toString pos.line ++ ", column: " ++
        toString pos.column))

/-- `Parser.assertTokenType`: panic with a `ParserError` on a kind mismatch
(`pos` left at its zero value, as in the source), otherwise advance. -/
def assertTokenType (expect : TokenType) (actual : Token) (s : PState) : PRes Unit :=
  if actual.type ≠ expect then
    .panicked (.perr { msg := "expectd token type is " ++ expect.q ++ ", got " ++ actual.type.q,
                       errorToken := actual, pos := ⟨0, 0⟩ })
  else
    PRes.bind (nextToken s) fun _ s1 => .ok () s1

/-- `Parser.assertNextTokenType`. -/
def assertNextTokenType (expect : TokenType) (s : PState) : PRes Unit :=
  assertTokenType expect s.peek s

/-- `Parser.assertCurrentTokenType`. -/
def assertCurrentTokenType (expect : TokenType) (s : PState) : PRes Unit :=
  assertTokenType expect s.current s

/-- The prefix parse functions registered in `parser.New`, keyed by token kind
(`p.prefixFns`).  `GetPrefixOperators` is modelled from the spec as the two
prefix operators `-` and `!`. -/
inductive PrefixRule where
  | identR | intR | boolR | stringR | ifR | functionR | arrayR | hashR | groupedR | prefixOpR
deriving DecidableEq, Repr

/-- The infix parse functions registered in `parser.New`, keyed by token kind
(`p.infixFns`): call on `(`, index on `[`, and `parseInfix` on every binary
operator from `GetInfixOperators`. -/
inductive InfixRule where
  | callR | indexR | infixOpR
deriving DecidableEq, Repr

/-- Dispatch table `p.prefixFns` as built by `parser.New`. -/
def prefixFns : TokenType → Option PrefixRule
  | .IDENT => some .identR
  | .INT => some .intR
  | .TRUE => some .boolR
  | .FALSE => some .boolR
  | .STRING => some .stringR
  | .IF => some .ifR
  | .FUNCTION => some .functionR
  | .LBRACKET => some .arrayR
  | .LBRACE => some .hashR
  | .LPAREN => some .groupedR
  | .MINUS => some .prefixOpR
  | .BANG => some .prefixOpR
  | _ => none

/-- Dispatch table `p.infixFns` as built by `parser.New`. -/
def infixFns : TokenType → Option InfixRule
  | .LPAREN => some .callR
  | .LBRACKET => some .indexR
  | .PLUS => some .infixOpR
  | .MINUS => some .infixOpR
  | .ASTERISK => some .infixOpR
  | .SLASH => some .infixOpR
  | .LT => some .infixOpR
  | .GT => some .infixOpR
  | .EQ => some .infixOpR
  | .NOT_EQ => some .infixOpR
  | _ => none

/-- `strconv.ParseInt(literal, 0, 64)` as reached from `parseInteger`, on the
digit-string literals the lexer produces: base 0 means a literal with a leading
`0` and more digits is read as octal (digits 8/9 make it an error), otherwise
decimal; a value beyond the signed 64-bit maximum is an overflow error.
`none` models the error return. -/
def goParseInt (s : String) : Option Int :=
  let ds := s.data
  if ds ≠ [] ∧ ds.all (fun c => c.isDigit) then
    if ds.length > 1 ∧ ds.headD '0' = '0' then
      if ds.all (fun c => c.toNat - 48 < 8) then
        let v := ds.foldl (fun a c => 8 * a + ((c.toNat : Int) - 48)) 0
        if v ≤ 9223372036854775807 then some v else none
      else none
    else
      let v := ds.foldl (fun a c => 10 * a + ((c.toNat : Int) - 48)) 0
      if v ≤ 9223372036854775807 then some v else none
  else none

mutual
/-- `Parser.parseStatement`: dispatch on the current token kind. -/
def parseStatement : Nat → PState → PRes Statement
  | 0, _ => .fuelOut
  | Nat.succ n, s =>
    match s.current.type with
    | .LET => parseLetStatement n s
    | .RETURN => parseReturnStatement n s
    | _ => parseExpressionStatement n s

/-- `Parser.parseLetStatement`: `let <ident> = <expr> [;]`; when the parsed
value is a function literal its `Name` field is overwritten with the binding's
name. -/
def parseLetStatement : Nat → PState → PRes Statement
  | 0, _ => .fuelOut
  | Nat.succ n, s =>
    let letTok := s.current
    PRes.bind (assertNextTokenType .IDENT s) fun _ s1 =>
    let name : Identifier := { tok := s1.current, value := s1.current.literal }
    PRes.bind (assertNextTokenType .ASSIGN s1) fun _ s2 =>
    PRes.bind (nextToken s2) fun _ s3 =>
    PRes.bind (parseExpression n LOWEST_PRECEDENCE s3) fun express s4 =>
    let value :=
      match express with
      | .functionExpr t _ ps b => Expression.functionExpr t (some name) ps b
      | e => e
    if s4.peek.type = .SEMICOLON then
      PRes.bind (nextToken s4) fun _ s5 => .ok (.letStmt letTok name value) s5
    else
      .ok (.letStmt letTok name value) s4

/-- `Parser.parseReturnStatement`. -/
def parseReturnStatement : Nat → PState → PRes Statement
  | 0, _ => .fuelOut
  | Nat.succ n, s =>
    let retTok := s.current
    if s.peek.type ≠ .SEMICOLON then
      PRes.bind (nextToken s) fun _ s1 =>
      PRes.bind (parseExpression n LOWEST_PRECEDENCE s1) fun express s2 =>
      if s2.peek.type = .SEMICOLON then
        PRes.bind (nextToken s2) fun _ s3 => .ok (.returnStmt retTok (some express)) s3
      else
        .ok (.returnStmt retTok (some express)) s2
    else
      if s.peek.type = .SEMICOLON then
        PRes.bind (nextToken s) fun _ s1 => .ok (.returnStmt retTok none) s1
      else
        .ok (.returnStmt retTok none) s

/-- `Parser.parseExpressionStatement`. -/
def parseExpressionStatement : Nat → PState → PRes Statement
  | 0, _ => .fuelOut
  | Nat.succ n, s =>
    let tok := s.current
    PRes.bind (parseExpression n LOWEST_PRECEDENCE s) fun value s1 =>
    if s1.peek.type = .SEMICOLON then
      PRes.bind (nextToken s1) fun _ s2 => .ok (.exprStmt tok value) s2
    else
      .ok (.exprStmt tok value) s1

/-- `Parser.parseExpression`: look up the prefix rule for the current token
(panicking with `can not parse token type %q` when none is registered), parse
the prefix-governed expression, then run the precedence-climbing loop. -/
def parseExpression : Nat → Nat → PState → PRes Expression
  | 0, _, _ => .fuelOut
  | Nat.succ n, precedence, s =>
    match prefixFns s.current.type with
    | none =>
        .panicked (.perr { msg := "can not parse token type " ++ s.current.type.q,
                           errorToken := s.current, pos := ⟨0, 0⟩ })
    | some rule =>
        PRes.bind (runPrefixRule n rule s) fun left s1 =>
        parseExpressionLoop n precedence left s1

/-- The `for` loop inside `Parser.parseExpression`: while the lookahead is not
a semicolon and its precedence exceeds the threshold, consume the infix
operator and fold it with the left expression (stopping when no infix rule is
registered for the lookahead). -/
def parseExpressionLoop : Nat → Nat → Expression → PState → PRes Expression
  | 0, _, _, _ => .fuelOut
  | Nat.succ n, precedence, left, s =>
    if s.peek.type ≠ .SEMICOLON ∧ precedence < s.peek.type.precedence then
      match infixFns s.peek.type with
      | none => .ok left s
      | some rule =>
          PRes.bind (nextToken s) fun _ s1 =>
          PRes.bind (runInfixRule n rule left s1) fun left2 s2 =>
          parseExpressionLoop n precedence left2 s2
    else
      .ok left s

/-- Dispatch through `p.prefixFns` (the registered closures of `parser.New`). -/
def runPrefixRule : Nat → PrefixRule → PState → PRes Expression
  | 0, _, _ => .fuelOut
  | Nat.succ n, rule, s =>
    match rule with
    | .identR => .ok (.identE s.current s.current.literal) s
    | .intR =>
        match goParseInt s.current.literal with
        | some v => .ok (.integer s.current v) s
        | none =>
            .panicked (.perr { msg := "could not parse \"" ++ s.current.literal ++
                                 "\" as intger",
                               errorToken := s.current, pos := ⟨0, 0⟩ })
    | .boolR =>
        if s.current.type = .TRUE then .ok (.boolean s.current true) s
        else if s.current.type = .FALSE then .ok (.boolean s.current false) s
        else
          .panicked (.perr { msg := "could not parse \"" ++ s.current.literal ++
                               "\" as boolean",
                             errorToken := s.current, pos := ⟨0, 0⟩ })
    | .stringR => .ok (.stringE s.current s.current.literal) s
    | .ifR => parseIfExpression n s
    | .functionR => parseFunction n s
    | .arrayR => parseArrayLiteral n s
    | .hashR => parseHashLiteral n s
    | .groupedR => parseGroupedExpression n s
    | .prefixOpR => parsePrefixExpr n s

/-- Dispatch through `p.infixFns`. -/
def runInfixRule : Nat → InfixRule → Expression → PState → PRes Expression
  | 0, _, _, _ => .fuelOut
  | Nat.succ n, rule, left, s =>
    match rule with
    | .callR => parseCallExpression n left s
    | .indexR => parseIndexExpression n left s
    | .infixOpR => parseInfixExpr n left s

/-- `Parser.parsePrefix`: record operator token/literal, use the operator
token's own precedence as the operand threshold. -/
def parsePrefixExpr : Nat → PState → PRes Expression
  | 0, _ => .fuelOut
  | Nat.succ n, s =>
    let tok := s.current
    let operator := s.current.literal
    let precedence := s.current.type.precedence
    PRes.bind (nextToken s) fun _ s1 =>
    PRes.bind (parseExpression n precedence s1) fun value s2 =>
    .ok (.prefixExpr tok operator value) s2

/-- `Parser.parseInfix`: called with the current token at the operator. -/
def parseInfixExpr : Nat → Expression → PState → PRes Expression
  | 0, _, _ => .fuelOut
  | Nat.succ n, left, s =>
    let tok := s.current
    let operator := s.current.literal
    let precedence := s.current.type.precedence
    PRes.bind (nextToken s) fun _ s1 =>
    PRes.bind (parseExpression n precedence s1) fun right s2 =>
    .ok (.infixExpr tok left operator right) s2

/-- `Parser.parseGroupedExpression`. -/
def parseGroupedExpression : Nat → PState → PRes Expression
  | 0, _ => .fuelOut
  | Nat.succ n, s =>
    PRes.bind (assertCurrentTokenType .LPAREN s) fun _ s1 =>
    PRes.bind (parseExpression n LOWEST_PRECEDENCE s1) fun e s2 =>
    PRes.bind (assertNextTokenType .RPAREN s2) fun _ s3 =>
    .ok e s3

/-- `Parser.parseIfExpression`. -/
def parseIfExpression : Nat → PState → PRes Expression
  | 0, _ => .fuelOut
  | Nat.succ n, s =>
    let tok := s.current
    if s.current.type ≠ .IF then
      .panicked (.perr { msg := "expectd token type is " ++ TokenType.IF.q ++ ", got " ++
                           s.current.type.q,
                         errorToken := s.current, pos := ⟨0, 0⟩ })
    else
      PRes.bind (assertNextTokenType .LPAREN s) fun _ s1 =>
      PRes.bind (parseExpression n LOWEST_PRECEDENCE s1) fun condition s2 =>
      PRes.bind (assertCurrentTokenType .RPAREN s2) fun _ s3 =>
      PRes.bind (parseBlockExpression n s3) fun thenBody s4 =>
      if s4.peek.type = .ELSE then
        PRes.bind (nextToken s4) fun _ s5 =>
        PRes.bind (assertNextTokenType .LBRACE s5) fun _ s6 =>
        PRes.bind (parseBlockExpression n s6) fun elseBody s7 =>
        .ok (.ifExpr tok condition thenBody (some elseBody)) s7
      else
        .ok (.ifExpr tok condition thenBody none) s4

/-- `Parser.parseBlockExpression`: `{` then statements until `}` or EOF, then
the closing-brace check. -/
def parseBlockExpression : Nat → PState → PRes BlockExpression
  | 0, _ => .fuelOut
  | Nat.succ n, s =>
    let tok := s.current
    PRes.bind (assertCurrentTokenType .LBRACE s) fun _ s1 =>
    parseBlockLoop n tok [] s1

/-- The statement loop of `parseBlockExpression` plus its final `}` check. -/
def parseBlockLoop : Nat → Token → List Statement → PState → PRes BlockExpression
  | 0, _, _, _ => .fuelOut
  | Nat.succ n, tok, acc, s =>
    if s.current.type ≠ .RBRACE ∧ s.current.type ≠ .EOF then
      PRes.bind (parseStatement n s) fun st s1 =>
      PRes.bind (nextToken s1) fun _ s2 =>
      parseBlockLoop n tok (acc ++ [st]) s2
    else
      if s.current.type ≠ .RBRACE then
        .panicked (.perr { msg := "expectd token type is " ++ TokenType.RBRACE.q ++ ", got " ++
                             s.current.type.q,
                           errorToken := s.current, pos := ⟨0, 0⟩ })
      else
        .ok (BlockExpression.mk tok acc) s

/-- `Parser.parseFunction`: optional name, parameter list, block body. -/
def parseFunction : Nat → PState → PRes Expression
  | 0, _ => .fuelOut
  | Nat.succ n, s =>
    let tok := s.current
    PRes.bind
      (if s.peek.type = .IDENT then
        PRes.bind (nextToken s) fun _ s1 =>
          .ok (some ({ tok := s1.current, value := s1.current.literal } : Identifier)) s1
      else
        .ok none s)
      fun name s1 =>
    PRes.bind (assertNextTokenType .LPAREN s1) fun _ s2 =>
    PRes.bind (parseParameters n s2) fun params s3 =>
    PRes.bind (assertNextTokenType .LBRACE s3) fun _ s4 =>
    PRes.bind (parseBlockExpression n s4) fun body s5 =>
    .ok (.functionExpr tok name params body) s5

/-- `Parser.parseParameters`: advance past `(`, then the collection loop. -/
def parseParameters : Nat → PState → PRes (List Identifier)
  | 0, _ => .fuelOut
  | Nat.succ n, s =>
    PRes.bind (nextToken s) fun _ s1 =>
    parseParametersLoop n [] s1

/-- The loop of `parseParameters`: every non-`)`/non-EOF current token is taken
as a parameter identifier; a single following comma is skipped when present;
then the closing-paren check. -/
def parseParametersLoop : Nat → List Identifier → PState → PRes (List Identifier)
  | 0, _, _ => .fuelOut
  | Nat.succ n, acc, s =>
    if s.current.type ≠ .RPAREN ∧ s.current.type ≠ .EOF then
      let param : Identifier := { tok := s.current, value := s.current.literal }
      PRes.bind (nextToken s) fun _ s1 =>
      if s1.current.type = .COMMA then
        PRes.bind (nextToken s1) fun _ s2 => parseParametersLoop n (acc ++ [param]) s2
      else
        parseParametersLoop n (acc ++ [param]) s1
    else
      if s.current.type ≠ .RPAREN then
        .panicked (.perr { msg := "expectd token type is " ++ TokenType.RPAREN.q ++ ", got " ++
                             s.current.type.q,
                           errorToken := s.current, pos := ⟨0, 0⟩ })
      else
        .ok acc s

/-- `Parser.parseArrayLiteral`: `[`-check, the early empty-array return when
the lookahead is `]`, then the element loop. -/
def parseArrayLiteral : Nat → PState → PRes Expression
  | 0, _ => .fuelOut
  | Nat.succ n, s =>
    let tok := s.current
    PRes.bind (assertCurrentTokenType .LBRACKET s) fun _ s1 =>
    if s1.peek.type = .RBRACKET then
      PRes.bind (nextToken s1) fun _ s2 => .ok (.arrayLit tok []) s2
    else
      parseArrayLoop n tok [] s1

/-- The element loop of `parseArrayLiteral` plus its final `]` check: parse an
element, advance, skip a single comma when present. -/
def parseArrayLoop : Nat → Token → List Expression → PState → PRes Expression
  | 0, _, _, _ => .fuelOut
  | Nat.succ n, tok, acc, s =>
    if s.current.type ≠ .RBRACKET ∧ s.current.type ≠ .EOF then
      PRes.bind (parseExpression n LOWEST_PRECEDENCE s) fun e s1 =>
      PRes.bind (nextToken s1) fun _ s2 =>
      if s2.current.type = .COMMA then
        PRes.bind (nextToken s2) fun _ s3 => parseArrayLoop n tok (acc ++ [e]) s3
      else
        parseArrayLoop n tok (acc ++ [e]) s2
    else
      if s.current.type ≠ .RBRACKET then
        .panicked (.perr { msg := "expectd token type is " ++ TokenType.RBRACKET.q ++ ", got " ++
                             s.current.type.q,
                           errorToken := s.current, pos := ⟨0, 0⟩ })
      else
        .ok (.arrayLit tok acc) s

/-- `Parser.parseHashLiteral`: `{`-check, the early empty-hash return when the
lookahead is `}`, then the pair loop. -/
def parseHashLiteral : Nat → PState → PRes Expression
  | 0, _ => .fuelOut
  | Nat.succ n, s =>
    let tok := s.current
    PRes.bind (assertCurrentTokenType .LBRACE s) fun _ s1 =>
    if s1.peek.type = .RBRACE then
      PRes.bind (nextToken s1) fun _ s2 => .ok (.hashLit tok []) s2
    else
      parseHashLoop n tok [] s1

/-- The pair loop of `parseHashLiteral` plus its final `}` check.  The Go map
assignment `hash.Pair[k] = v` always adds a fresh entry (keys are freshly
allocated nodes), modelled as appending to the contents list. -/
def parseHashLoop : Nat → Token → List (Expression × Expression) → PState → PRes Expression
  | 0, _, _, _ => .fuelOut
  | Nat.succ n, tok, acc, s =>
    if s.current.type ≠ .RBRACE ∧ s.current.type ≠ .EOF then
      PRes.bind (parseExpression n LOWEST_PRECEDENCE s) fun k s1 =>
      PRes.bind (assertNextTokenType .COLON s1) fun _ s2 =>
      PRes.bind (nextToken s2) fun _ s3 =>
      PRes.bind (parseExpression n LOWEST_PRECEDENCE s3) fun v s4 =>
      PRes.bind (nextToken s4) fun _ s5 =>
      if s5.current.type = .COMMA then
        PRes.bind (nextToken s5) fun _ s6 => parseHashLoop n tok (acc ++ [(k, v)]) s6
      else
        parseHashLoop n tok (acc ++ [(k, v)]) s5
    else
      if s.current.type ≠ .RBRACE then
        .panicked (.perr { msg := "expectd token type is " ++ TokenType.RBRACE.q ++ ", got " ++
                             s.current.type.q,
                           errorToken := s.current, pos := ⟨0, 0⟩ })
      else
        .ok (.hashLit tok acc) s

/-- `Parser.parseCallExpression`: `(`-check then the argument loop. -/
def parseCallExpression : Nat → Expression → PState → PRes Expression
  | 0, _, _ => .fuelOut
  | Nat.succ n, function, s =>
    let tok := s.current
    PRes.bind (assertCurrentTokenType .LPAREN s) fun _ s1 =>
    PRes.bind (parseCallLoop n [] s1) fun args s2 =>
    .ok (.callExpr tok function args) s2

/-- The argument loop of `parseCallExpression`: until the current token is `)`,
parse an argument unless the current token is a comma, then advance (the
advance happens in both branches, so commas are skipped and never required). -/
def parseCallLoop : Nat → List Expression → PState → PRes (List Expression)
  | 0, _, _ => .fuelOut
  | Nat.succ n, acc, s =>
    if s.current.type ≠ .RPAREN then
      if s.current.type ≠ .COMMA then
        PRes.bind (parseExpression n LOWEST_PRECEDENCE s) fun arg s1 =>
        PRes.bind (nextToken s1) fun _ s2 =>
        parseCallLoop n (acc ++ [arg]) s2
      else
        PRes.bind (nextToken s) fun _ s1 =>
        parseCallLoop n acc s1
    else
      .ok acc s

/-- `Parser.parseIndexExpression`: builds an `ast.InfixExpression` whose
operator is the `[` literal. -/
def parseIndexExpression : Nat → Expression → PState → PRes Expression
  | 0, _, _ => .fuelOut
  | Nat.succ n, left, s =>
    let tok := s.current
    let operator := s.current.literal
    PRes.bind (assertCurrentTokenType .LBRACKET s) fun _ s1 =>
    PRes.bind (parseExpression n LOWEST_PRECEDENCE s1) fun index s2 =>
    PRes.bind (assertNextTokenType .RBRACKET s2) fun _ s3 =>
    .ok (.infixExpr tok left operator index) s3
end

/-- `Parser.parsePostfix` (not reachable: `GetPostfixOperators` is modelled as
empty, so no postfix rule is registered). -/
def parsePostfixExpr (left : Expression) (s : PState) : PRes Expression :=
  .ok (.postfixExpr s.current left s.current.literal) s

/-- The statement loop of `Parser.ParseProgram`. -/
def parseProgramLoop : Nat → List Statement → PState → PRes (List Statement)
  | 0, _, _ => .fuelOut
  | Nat.succ n, acc, s =>
    if s.current.type ≠ .EOF then
      PRes.bind (parseStatement n s) fun st s1 =>
      PRes.bind (nextToken s1) fun _ s2 =>
      parseProgramLoop n (acc ++ [st]) s2
    else
      .ok acc s

/-- Outcome of `Parser.ParseProgram` as seen by its caller: `(program, nil)`,
`(nil, err)` after the deferred `recover` converts a `ParserError` panic, or a
Go panic escaping the call (the recover runs `err = r.(error)`; when the panic
value is a plain string — as panicked by the lexer error callback installed in
`parser.New` — that type assertion itself panics and propagates). -/
inductive ProgramResult where
  | ok (program : Program)
  | err (e : ParserError)
  | goPanic (msg : String)
  | fuelOut

/-- `Parser.ParseProgram` on a fresh parser built by `parser.New`: initialize
the cursor with two `nextToken` pulls, run the statement loop, and apply the
deferred recover to any panic. -/
def ParseProgram (items : List LexItem) (fuel : Nat) : ProgramResult :=
  let s0 : PState := { current := eofToken, peek := eofToken, rest := items }
  let body :=
    PRes.bind (nextToken s0) fun _ s1 =>
    PRes.bind (nextToken s1) fun _ s2 =>
    parseProgramLoop fuel [] s2
  match body with
  | .ok prog _ => .ok prog
  | .panicked (.perr e) => .err e
  | .panicked (.str _) =>
      .goPanic "interface conversion: interface \x7b\x7d is string, not error"
  | .fuelOut => .fuelOut

/-- The opcodes named by the repository's encoding test (`TestMake`).
Modelled from the spec: the `code` package's constant declarations are not
under `src/`; each opcode is a single byte, so the opcodes are assigned
distinct byte values. -/
inductive OpCode where
  | OpConstant | OpAdd | OpSetLocal | OpClosure
deriving DecidableEq, Repr

/-- Modelled from the spec: the byte value of each opcode (`byte(OpConstant)`
etc.; the `code` package is not under `src/`).  Only distinctness of the
values is load-bearing. -/
def OpCode.toByte : OpCode → Nat
  | .OpConstant => 0
  | .OpAdd => 1
  | .OpSetLocal => 2
  | .OpClosure => 3

/-- Modelled from the spec: fixed per-opcode operand widths in bytes — a
2-byte constant-pool index for `OpConstant`, a 1-byte slot for `OpSetLocal`,
no operands for `OpAdd`, and a 2-byte function index plus a 1-byte
free-variable count for `OpClosure`. -/
def operandWidths : OpCode → List Nat
  | .OpConstant => [2]
  | .OpAdd => []
  | .OpSetLocal => [1]
  | .OpClosure => [2, 1]

/-- Big-endian encoding of one operand into `w` bytes. -/
def writeOperand (w : Nat) (operand : Nat) : List Nat :=
  match w with
  | 1 => [operand % 256]
  | 2 => [operand / 256 % 256, operand % 256]
  | _ => []

/-- Modelled from the spec: `code.Make` — one opcode byte followed by each
operand encoded big-endian in its fixed width. -/
def Make (c : OpCode) (operands : List Nat) : List Nat :=
  c.toByte :: (List.zip (operandWidths c) operands).foldr
    (fun wo acc => writeOperand wo.1 wo.2 ++ acc) []

/-- Modelled from the spec: `code.ReadUint16` — big-endian decode of the first
two bytes; `none` models the Go runtime bounds panic on a shorter slice. -/
def ReadUint16 (bs : List Nat) : Option Nat :=
  match bs with
  | b1 :: b2 :: _ => some (256 * b1 + b2)
  | _ => none

/-- A runtime value (`object.Object` is an external interface; `nil` is the
zero interface value filling a fresh stack). -/
inductive Obj where
  | nil
  | intObj (n : Int)
  | boolObj (b : Bool)
  | strObj (s : String)
deriving DecidableEq, Repr

/-- `vm.StackSize`. -/
def StackSize : Nat := 2048

/-- `vm.VM`: instruction bytes, constant pool, value stack and stack pointer.
`sp` is a Go `int` starting at `-1`, modelled as `Int`. -/
structure VM where
  instructions : List Nat
  constants : List Obj
  stack : List Obj
  sp : Int
deriving DecidableEq, Repr

/-- `vm.New`: a fresh VM over a bytecode's instructions and constants, with a
`StackSize`-element stack of nil interface values and `sp = -1`. -/
def VM.new (instructions : List Nat) (constants : List Obj) : VM :=
  { instructions := instructions, constants := constants,
    stack := List.replicate StackSize .nil, sp := -1 }

/-- Result of `VM.pushStack`: success, the value-level `error` return (VM
unchanged, as the source returns before touching `sp`), or a Go runtime panic
(the slice write `v.stack[v.sp] = o` out of bounds). -/
inductive PushResult where
  | okP (v : VM)
  | fault (msg : String) (v : VM)
  | panicP (msg : String)
deriving DecidableEq, Repr

/-- `vm.pushStack`: guard `v.sp >= len(v.stack)` returning the "Stack full"
error, else `v.sp++; v.stack[v.sp] = o`.  The bounds test on the write models
Go's runtime slice bounds check, which panics when violated. -/
def VM.pushStack (v : VM) (o : Obj) : PushResult :=
  if v.sp ≥ (v.stack.length : Int) then .fault "Stack full" v
  else if 0 ≤ v.sp + 1 ∧ v.sp + 1 < (v.stack.length : Int) then
    .okP { v with sp := v.sp + 1, stack := v.stack.set (v.sp + 1).toNat o }
  else
    .panicP "runtime error: index out of range"

/-- `vm.popStack`: nil sentinel when the stack is empty, else read the top and
decrement (the read is in bounds whenever `sp < len(stack)`, which holds at
every reachable state). -/
def VM.popStack (v : VM) : Obj × VM :=
  if v.sp < 0 then (.nil, v)
  else (v.stack.getD v.sp.toNat .nil, { v with sp := v.sp - 1 })

/-- `vm.StackTop`: nil when the stack is empty, else the value at `sp` (the
read is in bounds at every reachable state). -/
def VM.StackTop (v : VM) : Obj :=
  if v.sp < 0 then .nil else v.stack.getD v.sp.toNat .nil

/-- Result of `vm.Run`: normal completion (`nil` error) with the final VM
state, the value-level error return, a Go runtime panic, or exhaustion of the
loop fuel of the embedding (unreachable with the fuel `VM.Run` supplies). -/
inductive RunResult where
  | okR (v : VM)
  | errR (msg : String)
  | panicR (msg : String)
  | fuelOutR
deriving DecidableEq, Repr

/-- The fetch-decode-execute loop of `vm.Run`: read the opcode byte at `ip`;
`OpConstant` decodes a 2-byte big-endian pool index (`ip += 2`) and pushes
`v.constants[index]` (an out-of-range pool index is a Go runtime panic); the
`switch` has no other case and no default, so any other opcode byte falls
through and the loop merely advances `ip`.  (The `fmt.Printf` tracing of the
source has no bearing on the state.) -/
def runLoop : Nat → VM → Nat → RunResult
  | 0, _, _ => .fuelOutR
  | Nat.succ fuel, v, ip =>
    if ip < v.instructions.length then
      let b := v.instructions.getD ip 0
      if b = OpCode.toByte .OpConstant then
        match ReadUint16 (v.instructions.drop (ip + 1)) with
        | none => .panicR "runtime error: index out of range"
        | some index =>
            match v.constants[index]? with
            | none => .panicR "runtime error: index out of range"
            | some c =>
                match v.pushStack c with
                | .okP v1 => runLoop fuel v1 (ip + 2 + 1)
                | .fault msg _ => .errR msg
                | .panicP msg => .panicR msg
      else
        runLoop fuel v (ip + 1)
    else
      .okR v

/-- `vm.Run`: the loop from `ip = 0`; `ip` strictly increases every iteration,
so `len(instructions) + 1` fuel steps are never exhausted. -/
def VM.Run (v : VM) : RunResult :=
  runLoop (v.instructions.length + 1) v 0

/-- Go map iteration semantics: the iteration order over a map is not
specified, so observing the entries of a Go map may yield any permutation of
its contents.  `order` is an admissible iteration order of the map whose
contents (in insertion order) are `m`. -/
def goMapIterOk {K V : Type} (m order : List (K × V)) : Prop :=
  List.Perm order m

/-- Shorthand for a lexer-produced token item. -/
def tk (tt : TokenType) (lit : String) (line col : Nat) : LexItem :=
  .tok { type := tt, literal := lit, pos := ⟨line, col⟩ }

/-- Token shorthand (used in expected ASTs). -/
def tok0 (tt : TokenType) (lit : String) (line col : Nat) : Token :=
  { type := tt, literal := lit, pos := ⟨line, col⟩ }

/-- Lexer stream of `1 + 2 * 3`. -/
def itemsMulPrec : List LexItem :=
  [tk .INT "1" 1 1, tk .PLUS "+" 1 3, tk .INT "2" 1 5, tk .ASTERISK "*" 1 7, tk .INT "3" 1 9]

/-- Lexer stream of `-1 + 2`. -/
def itemsNegPrec : List LexItem :=
  [tk .MINUS "-" 1 1, tk .INT "1" 1 2, tk .PLUS "+" 1 4, tk .INT "2" 1 6]

/-- Lexer stream of `a + b + c`. -/
def itemsLeftFold : List LexItem :=
  [tk .IDENT "a" 1 1, tk .PLUS "+" 1 3, tk .IDENT "b" 1 5, tk .PLUS "+" 1 7, tk .IDENT "c" 1 9]

/-- C1: operator precedence.  `1 + 2 * 3` parses to an addition whose right
operand is the multiplication `2 * 3`; `-1 + 2` parses to an addition whose
left operand is the prefix negation of `1` alone; `a + b + c` folds
left-to-right into `(a + b) + c`. -/
theorem parser_precedence_examples :
    ParseProgram itemsMulPrec 99 =
      .ok [.exprStmt (tok0 .INT "1" 1 1)
        (.infixExpr (tok0 .PLUS "+" 1 3)
          (.integer (tok0 .INT "1" 1 1) 1) "+"
          (.infixExpr (tok0 .ASTERISK "*" 1 7)
            (.integer (tok0 .INT "2" 1 5) 2) "*"
            (.integer (tok0 .INT "3" 1 9) 3)))] ∧
    ParseProgram itemsNegPrec 99 =
      .ok [.exprStmt (tok0 .MINUS "-" 1 1)
        (.infixExpr (tok0 .PLUS "+" 1 4)
          (.prefixExpr (tok0 .MINUS "-" 1 1) "-"
            (.integer (tok0 .INT "1" 1 2) 1)) "+"
          (.integer (tok0 .INT "2" 1 6) 2))] ∧
    ParseProgram itemsLeftFold 99 =
      .ok [.exprStmt (tok0 .IDENT "a" 1 1)
        (.infixExpr (tok0 .PLUS "+" 1 7)
          (.infixExpr (tok0 .PLUS "+" 1 3)
            (.identE (tok0 .IDENT "a" 1 1) "a") "+"
            (.identE (tok0 .IDENT "b" 1 5) "b")) "+"
          (.identE (tok0 .IDENT "c" 1 9) "c"))] :=
  ⟨rfl, rfl, rfl⟩

/-- Lexer stream of `let add = fn(a, b) { a + b };`. -/
def itemsLetAdd : List LexItem :=
  [tk .LET "let" 1 1, tk .IDENT "add" 1 5, tk .ASSIGN "=" 1 9, tk .FUNCTION "fn" 1 11,
   tk .LPAREN "(" 1 13, tk .IDENT "a" 1 14, tk .COMMA "," 1 15, tk .IDENT "b" 1 17,
   tk .RPAREN ")" 1 18, tk .LBRACE "\x7b" 1 20, tk .IDENT "a" 1 22, tk .PLUS "+" 1 24,
   tk .IDENT "b" 1 26, tk .RBRACE "\x7d" 1 28, tk .SEMICOLON ";" 1 29]

/-- C8: parsing `let add = fn(a, b) { a + b };` retroactively assigns the
binding's name to the function literal: the resulting function-expression
node's name field holds the identifier `add`. -/
theorem let_function_name_backfill :
    ParseProgram itemsLetAdd 99 =
      .ok [.letStmt (tok0 .LET "let" 1 1)
        { tok := tok0 .IDENT "add" 1 5, value := "add" }
        (.functionExpr (tok0 .FUNCTION "fn" 1 11)
          (some { tok := tok0 .IDENT "add" 1 5, value := "add" })
          [{ tok := tok0 .IDENT "a" 1 14, value := "a" },
           { tok := tok0 .IDENT "b" 1 17, value := "b" }]
          (BlockExpression.mk (tok0 .LBRACE "\x7b" 1 20)
            [.exprStmt (tok0 .IDENT "a" 1 22)
              (.infixExpr (tok0 .PLUS "+" 1 24)
                (.identE (tok0 .IDENT "a" 1 22) "a") "+"
                (.identE (tok0 .IDENT "b" 1 26) "b"))]))] :=
  rfl

/-- Lexer stream of `f(a, b)`. -/
def itemsCallComma : List LexItem :=
  [tk .IDENT "f" 1 1, tk .LPAREN "(" 1 2, tk .IDENT "a" 1 3, tk .COMMA "," 1 4,
   tk .IDENT "b" 1 5, tk .RPAREN ")" 1 6]

/-- Lexer stream of `f(a b)` (same token positions, comma removed). -/
def itemsCallNoComma : List LexItem :=
  [tk .IDENT "f" 1 1, tk .LPAREN "(" 1 2, tk .IDENT "a" 1 3,
   tk .IDENT "b" 1 5, tk .RPAREN ")" 1 6]

/-- Lexer stream of `[1, 2]`. -/
def itemsArrComma : List LexItem :=
  [tk .LBRACKET "[" 1 1, tk .INT "1" 1 2, tk .COMMA "," 1 3, tk .INT "2" 1 4,
   tk .RBRACKET "]" 1 5]

/-- Lexer stream of `[1 2]` (same token positions, comma removed). -/
def itemsArrNoComma : List LexItem :=
  [tk .LBRACKET "[" 1 1, tk .INT "1" 1 2, tk .INT "2" 1 4, tk .RBRACKET "]" 1 5]

/-- Lexer stream of `fn(a, b) {}`. -/
def itemsFnComma : List LexItem :=
  [tk .FUNCTION "fn" 1 1, tk .LPAREN "(" 1 3, tk .IDENT "a" 1 4, tk .COMMA "," 1 5,
   tk .IDENT "b" 1 6, tk .RPAREN ")" 1 7, tk .LBRACE "\x7b" 1 9, tk .RBRACE "\x7d" 1 10]

/-- Lexer stream of `fn(a b) {}` (same token positions, comma removed). -/
def itemsFnNoComma : List LexItem :=
  [tk .FUNCTION "fn" 1 1, tk .LPAREN "(" 1 3, tk .IDENT "a" 1 4,
   tk .IDENT "b" 1 6, tk .RPAREN ")" 1 7, tk .LBRACE "\x7b" 1 9, tk .RBRACE "\x7d" 1 10]

/-- C10: comma separators are optional in call-argument lists, function
parameter lists, and array literals: deleting the comma token (keeping every
other token identical) yields the identical parse, and neither variant is a
syntax fault — `f(a b)` parses to the same CallExpression as `f(a, b)`,
`[1 2]` to the same ArrayLiteral as `[1, 2]`, and `fn(a b) {}` to the same
function literal as `fn(a, b) {}`. -/
theorem comma_optional_separators :
    ParseProgram itemsCallNoComma 99 = ParseProgram itemsCallComma 99 ∧
    ParseProgram itemsArrNoComma 99 = ParseProgram itemsArrComma 99 ∧
    ParseProgram itemsFnNoComma 99 = ParseProgram itemsFnComma 99 ∧
    ParseProgram itemsCallComma 99 =
      .ok [.exprStmt (tok0 .IDENT "f" 1 1)
        (.callExpr (tok0 .LPAREN "(" 1 2)
          (.identE (tok0 .IDENT "f" 1 1) "f")
          [.identE (tok0 .IDENT "a" 1 3) "a", .identE (tok0 .IDENT "b" 1 5) "b"])] ∧
    ParseProgram itemsArrComma 99 =
      .ok [.exprStmt (tok0 .LBRACKET "[" 1 1)
        (.arrayLit (tok0 .LBRACKET "[" 1 1)
          [.integer (tok0 .INT "1" 1 2) 1, .integer (tok0 .INT "2" 1 4) 2])] :=
  ⟨rfl, rfl, rfl, rfl, rfl⟩

/-- Lexer stream of `let 5` — a wrong token where `IDENT` is required. -/
def itemsBadLet : List LexItem := [tk .LET "let" 1 1, tk .INT "5" 1 5]

/-- Lexer stream of a lone `)` — a token with no registered prefix rule. -/
def itemsBadPrefix : List LexItem := [tk .RPAREN ")" 2 3]

/-- Lexer stream of an integer literal exceeding the signed 64-bit range. -/
def itemsBadInt : List LexItem := [tk .INT "99999999999999999999" 1 1]

/-- C6 (evaluation at the failing inputs): for each kind of structural
mismatch, `ParseProgram` does return a nil program together with an error
carrying the offending token, and the first fault is the one reported — but
the human-readable message always reads `at line: 0, column: 0`, because every
panic site fills only `errorToken` and leaves the `pos` field that `Error()`
formats at its zero value; the offending tokens here sit at line 1 column 5,
line 2 column 3, and line 1 column 1. -/
theorem parse_error_position_zero :
    ParseProgram itemsBadLet 99 =
      .err { errorToken := tok0 .INT "5" 1 5,
             msg := "expectd token type is \"IDENT\", got \"INT\"", pos := ⟨0, 0⟩ } ∧
    ParserError.ErrorStr
        { errorToken := tok0 .INT "5" 1 5,
          msg := "expectd token type is \"IDENT\", got \"INT\"", pos := ⟨0, 0⟩ } =
      "expectd token type is \"IDENT\", got \"INT\" at line: 0, column: 0" ∧
    ParseProgram itemsBadPrefix 99 =
      .err { errorToken := tok0 .RPAREN ")" 2 3,
             msg := "can not parse token type \"RPAREN\"", pos := ⟨0, 0⟩ } ∧
    ParseProgram itemsBadInt 99 =
      .err { errorToken := tok0 .INT "99999999999999999999" 1 1,
             msg := "could not parse \"99999999999999999999\" as intger", pos := ⟨0, 0⟩ } :=
  ⟨rfl, rfl, rfl, rfl⟩

/-- Lexer stream whose first pull reports malformed input through the
caller-supplied error callback. -/
def itemsLexErr : List LexItem := [.lexErr ⟨1, 1⟩ "illegal character"]

/-- C7 (evaluation at the failing input): when the tokenizer invokes the error
callback, the handler installed by `parser.New` panics with a plain formatted
string; the deferred recover in `ParseProgram` runs `err = r.(error)`, and
since a Go string does not implement `error` that type assertion itself panics
— the panic escapes `ParseProgram` instead of being returned as an error
value. -/
theorem parse_lexer_error_panic_escapes :
    ParseProgram itemsLexErr 99 =
      .goPanic "interface conversion: interface \x7b\x7d is string, not error" :=
  rfl

/-- Lexer stream of `{1: 2, 3: 4}`. -/
def itemsHash : List LexItem :=
  [tk .LBRACE "\x7b" 1 1, tk .INT "1" 1 2, tk .COLON ":" 1 3, tk .INT "2" 1 5,
   tk .COMMA "," 1 6, tk .INT "3" 1 8, tk .COLON ":" 1 9, tk .INT "4" 1 11,
   tk .RBRACE "\x7d" 1 12]

/-- The pairs of `{1: 2, 3: 4}` in source (insertion) order. -/
def hashPairsParsed : List (Expression × Expression) :=
  [(.integer (tok0 .INT "1" 1 2) 1, .integer (tok0 .INT "2" 1 5) 2),
   (.integer (tok0 .INT "3" 1 8) 3, .integer (tok0 .INT "4" 1 11) 4)]

/-- The same pairs in the opposite order. -/
def hashPairsSwapped : List (Expression × Expression) :=
  [(.integer (tok0 .INT "3" 1 8) 3, .integer (tok0 .INT "4" 1 11) 4),
   (.integer (tok0 .INT "1" 1 2) 1, .integer (tok0 .INT "2" 1 5) 2)]

/-- C9 counterexample: the parsed hash literal keeps its pairs in a Go `map`
(`hash.Pair[k] = v`), not an ordered sequence: iterating the map may observe
any permutation of the entries, and for `{1: 2, 3: 4}` the reversed order is
an admissible iteration order that differs from the source order — so
iterating (or re-serializing) the node does depend on the iteration order of a
non-ordered container. -/
theorem hash_literal_source_order_counterexample :
    ParseProgram itemsHash 99 =
      .ok [.exprStmt (tok0 .LBRACE "\x7b" 1 1)
        (.hashLit (tok0 .LBRACE "\x7b" 1 1) hashPairsParsed)] ∧
    goMapIterOk hashPairsParsed hashPairsSwapped ∧
    hashPairsSwapped ≠ hashPairsParsed := by
  refine ⟨rfl, List.Perm.swap _ _ _, ?_⟩
  intro h
  simp [hashPairsSwapped, hashPairsParsed, tok0] at h

/-- C9 amended: parsing `{1: 2, 3: 4}` stores exactly the written pairs as the
contents of the hash node's Go map, but the map is a non-ordered container:
both the source order and the swapped order are admissible iteration orders of
the same node. -/
theorem hash_literal_gomap_unordered :
    ParseProgram itemsHash 99 =
      .ok [.exprStmt (tok0 .LBRACE "\x7b" 1 1)
        (.hashLit (tok0 .LBRACE "\x7b" 1 1) hashPairsParsed)] ∧
    goMapIterOk hashPairsParsed hashPairsParsed ∧
    goMapIterOk hashPairsParsed hashPairsSwapped :=
  ⟨rfl, List.Perm.refl _, List.Perm.swap _ _ _⟩

/-- C2: instruction encoding is bit-exact, one opcode byte plus fixed-width
big-endian operands: a constant-load with pool index 65534 encodes to
`[opcode, 0xFF, 0xFE]` and its operand bytes decode back to 65534; a
local-slot access with slot 126 encodes to `[opcode, 126]`; a closure creation
with function index 65534 and 255 free variables encodes to
`[opcode, 0xFF, 0xFE, 0xFF]`. -/
theorem instruction_encoding_roundtrip :
    Make .OpConstant [65534] = [OpCode.toByte .OpConstant, 255, 254] ∧
    ReadUint16 (List.drop 1 (Make .OpConstant [65534])) = some 65534 ∧
    Make .OpSetLocal [126] = [OpCode.toByte .OpSetLocal, 126] ∧
    Make .OpAdd [] = [OpCode.toByte .OpAdd] ∧
    Make .OpClosure [65534, 255] = [OpCode.toByte .OpClosure, 255, 254, 255] :=
  ⟨rfl, rfl, rfl, rfl, rfl⟩

/-- A VM whose value stack already holds its configured capacity (`StackSize`)
of values: positions `0 .. StackSize-1` are occupied and `sp` points at the
last slot. -/
def fullStackVM : VM :=
  { instructions := [], constants := [],
    stack := List.replicate StackSize (.intObj 1), sp := (StackSize : Int) - 1 }

/-- C3 (evaluation at the failing input): pushing onto a stack already holding
`StackSize` values does not return the "Stack full" fault — the guard
`v.sp >= len(v.stack)` does not fire at `sp = StackSize - 1`, so the source
increments `sp` to `StackSize` and writes `v.stack[StackSize]`, an
out-of-range slice write that is a Go runtime panic. -/
theorem pushStack_full_stack_runtime_panic :
    fullStackVM.pushStack (.intObj 5) = .panicP "runtime error: index out of range" ∧
    fullStackVM.pushStack (.intObj 5) ≠ .fault "Stack full" fullStackVM := by
  have hlen : fullStackVM.stack.length = StackSize := List.length_replicate _ _
  have hsp : fullStackVM.sp = 2047 := rfl
  have h1 : fullStackVM.pushStack (.intObj 5) = .panicP "runtime error: index out of range" := by
    unfold VM.pushStack
    rw [hlen, hsp]
    norm_num [StackSize]
  exact ⟨h1, by rw [h1]; simp⟩

/-- Whether a `vm.Run` outcome is the value-level error return. -/
def RunResult.isValueError : RunResult → Bool
  | .errR _ => true
  | _ => false

/-- A VM whose single instruction byte is not a known opcode of the run loop's
dispatch. -/
def unknownOpVM : VM := VM.new [OpCode.toByte .OpAdd] []

/-- C5 counterexample: fetching an opcode byte the run loop does not know does
not abort the run — the dispatch `switch` has no default case, so the byte is
silently skipped and `Run` returns with a nil error and the VM unchanged. -/
theorem run_unknown_opcode_counterexample :
    unknownOpVM.Run = .okR unknownOpVM ∧
    RunResult.isValueError unknownOpVM.Run = false :=
  ⟨rfl, rfl⟩

/-- One definitional unfolding step of the run loop (the body of `runLoop` at
nonzero fuel). -/
theorem runLoop_succ (fuel : Nat) (v : VM) (ip : Nat) :
    runLoop (fuel + 1) v ip =
      (if ip < v.instructions.length then
        let b := v.instructions.getD ip 0
        if b = OpCode.toByte .OpConstant then
          match ReadUint16 (v.instructions.drop (ip + 1)) with
          | none => .panicR "runtime error: index out of range"
          | some index =>
              match v.constants[index]? with
              | none => .panicR "runtime error: index out of range"
              | some c =>
                  match v.pushStack c with
                  | .okP v1 => runLoop fuel v1 (ip + 2 + 1)
                  | .fault msg _ => .errR msg
                  | .panicP msg => .panicR msg
        else
          runLoop fuel v (ip + 1)
      else
        .okR v) :=
  rfl

/-- C5 amended: an opcode byte the run loop's dispatch does not know is
silently skipped — for any byte other than the constant-load opcode, running
the single-instruction program completes with a nil error and leaves the VM
unchanged (no fault of any kind). -/
theorem run_unknown_opcode_skipped (b : Nat) (consts : List Obj)
    (h : b ≠ OpCode.toByte .OpConstant) :
    VM.Run (VM.new [b] consts) = .okR (VM.new [b] consts) := by
  unfold VM.Run
  rw [runLoop_succ]
  have hins : (VM.new [b] consts).instructions = [b] := rfl
  rw [hins]
  simp only [List.length_cons, List.length_nil, List.getD_cons_zero]
  rw [if_pos (by norm_num), if_neg h]
  rw [show (0 : Nat) + 1 = 0 + 1 from rfl, runLoop_succ]
  rw [hins]
  norm_num

/-- Witness for `run_unknown_opcode_skipped` at the `OpAdd` byte. -/
theorem run_unknown_opcode_skipped_witness :
    OpCode.toByte .OpAdd ≠ OpCode.toByte .OpConstant ∧
    VM.Run (VM.new [OpCode.toByte .OpAdd] []) = .okR (VM.new [OpCode.toByte .OpAdd] []) :=
  ⟨by decide, run_unknown_opcode_skipped (OpCode.toByte .OpAdd) [] (by decide)⟩

/-- C4: running a program whose instruction stream is exactly one constant-load
instruction with pool index `i` (an index within the constant pool, encodable
in the instruction's 2 operand bytes) terminates without fault and leaves
exactly `constants[i]` at the top of the value stack: `Run` returns a nil
error and `StackTop` returns that constant. -/
theorem run_single_constant_load (consts : List Obj) (i : Nat)
    (h1 : i < consts.length) (h2 : i ≤ 65535) :
    VM.Run (VM.new (Make .OpConstant [i]) consts) =
      .okR { instructions := [0, i / 256 % 256, i % 256], constants := consts,
             stack := (List.replicate StackSize Obj.nil).set 0 consts[i], sp := 0 } ∧
    VM.StackTop { instructions := [0, i / 256 % 256, i % 256], constants := consts,
                  stack := (List.replicate StackSize Obj.nil).set 0 consts[i], sp := 0 } =
      consts[i] := by
  have hidx : 256 * (i / 256 % 256) + i % 256 = i := by omega
  have hget : consts[i]? = some consts[i] := List.getElem?_eq_getElem h1
  rw [show VM.new (Make .OpConstant [i]) consts =
      { instructions := [0, i / 256 % 256, i % 256], constants := consts,
        stack := List.replicate StackSize Obj.nil, sp := -1 } from rfl]
  generalize hstk : List.replicate StackSize Obj.nil = stk0
  have hlen : stk0.length = StackSize := by rw [← hstk, List.length_replicate]
  have hpush : VM.pushStack
      { instructions := [0, i / 256 % 256, i % 256], constants := consts,
        stack := stk0, sp := -1 } consts[i] =
      .okP { instructions := [0, i / 256 % 256, i % 256], constants := consts,
             stack := stk0.set 0 consts[i], sp := 0 } := by
    unfold VM.pushStack
    simp only []
    rw [hlen]
    rw [if_neg (by norm_num [StackSize]), if_pos (by norm_num [StackSize])]
    rfl
  constructor
  · unfold VM.Run
    simp only []
    rw [runLoop_succ]
    simp only []
    rw [if_pos (show 0 < ([0, i / 256 % 256, i % 256] : List Nat).length by norm_num)]
    rw [List.getD_cons_zero]
    rw [if_pos (show (0 : Nat) = OpCode.toByte .OpConstant from rfl)]
    rw [show List.drop (0 + 1) [0, i / 256 % 256, i % 256] = [i / 256 % 256, i % 256] from rfl]
    rw [show ReadUint16 [i / 256 % 256, i % 256] = some (256 * (i / 256 % 256) + i % 256) from rfl]
    rw [hidx]
    simp only []
    rw [hget]
    simp only []
    rw [hpush]
    simp only []
    rw [show ([0, i / 256 % 256, i % 256] : List Nat).length = 2 + 1 from rfl]
    rw [runLoop_succ]
    simp only []
    rw [if_neg (by norm_num)]
  · unfold VM.StackTop
    simp only []
    rw [if_neg (by norm_num)]
    rw [show Int.toNat 0 = 0 from rfl]
    rw [List.getD_eq_getElem _ _ (by rw [List.length_set, hlen]; norm_num [StackSize])]
    simp

/-- Witness for `run_single_constant_load`: constant pool `[7, 9]`, index 1. -/
theorem run_single_constant_load_witness :
    1 < ([Obj.intObj 7, Obj.intObj 9] : List Obj).length ∧ (1 : Nat) ≤ 65535 ∧
    (VM.Run (VM.new (Make .OpConstant [1]) [Obj.intObj 7, Obj.intObj 9]) =
      .okR { instructions := [0, 1 / 256 % 256, 1 % 256],
             constants := [Obj.intObj 7, Obj.intObj 9],
             stack := (List.replicate StackSize Obj.nil).set 0
               (([Obj.intObj 7, Obj.intObj 9] : List Obj)[1]), sp := 0 } ∧
     VM.StackTop { instructions := [0, 1 / 256 % 256, 1 % 256],
                   constants := [Obj.intObj 7, Obj.intObj 9],
                   stack := (List.replicate StackSize Obj.nil).set 0
                     (([Obj.intObj 7, Obj.intObj 9] : List Obj)[1]), sp := 0 } =
      ([Obj.intObj 7, Obj.intObj 9] : List Obj)[1]) :=
  ⟨by decide, by decide,
    run_single_constant_load [Obj.intObj 7, Obj.intObj 9] 1 (by decide) (by decide)⟩
